import Mathlib

/-!
Verification of the billing / currency subsystem of the komari-theme-purcarte
dashboard: the pricing formatter and remaining-value calculator
(utils/formatHelper), the renewal projection in the home page billing summary,
and the exchange-rate service (services/exchangeRate.ts).

Conventions of the embedding:
* JavaScript numbers carrying money amounts are modelled as exact rationals
  (ℚ); timestamps in milliseconds and day counts are modelled as integers (ℤ).
* `Date.parse`/`getTime` results are passed in as explicit integer
  millisecond timestamps; a `string | null` date argument is modelled as
  `Option ℤ` (the parsed timestamp, or `none` for a missing date).
* `Number.prototype.toFixed(2)` is modelled as `toFixed2`: round half up to
  two decimals and render with a two-digit fraction part.
* `String.prototype.toUpperCase` is modelled as `jsToUpper` (ASCII case
  mapping; identity on the CJK names and currency symbols in the tables,
  exactly as in JavaScript).
* JavaScript objects used as string-keyed dictionaries are modelled as
  association lists with `List.lookup`; `Map` mutation is explicit state
  passing.
-/

/-- ASCII uppercase of a string, modelling `String.prototype.toUpperCase` on
the identifiers this code handles. -/
def jsToUpper (s : String) : String := String.mk (s.data.map Char.toUpper)

/-- Two-digit rendering of a fraction part, used by `toFixed2`. -/
def pad2 (n : ℕ) : String := if n < 10 then "0" ++ toString n else toString n

/-- Model of `x.toFixed(2)`: round half up to an integer number of
hundredths, then print with exactly two decimals. -/
def toFixed2 (q : ℚ) : String :=
  let r : ℤ := ⌊q * 100 + 1 / 2⌋
  if r < 0 then "-" ++ toString (-r / 100) ++ "." ++ pad2 ((-r) % 100).toNat
  else toString (r / 100) ++ "." ++ pad2 (r % 100).toNat

/-- Options bag of `formatPrice` (`convertedPrice`, `targetCurrency`,
`showSymbol`, each optional). -/
structure FormatPriceOptions where
  convertedPrice : Option ℚ := none
  targetCurrency : Option String := none
  showSymbol : Option Bool := none

/-- Embedding of `formatPrice` from `utils/formatHelper`: sentinel guards,
then the one-time branch for a negative cycle, then the billing-cycle
classification chain (`30/31 → 月`, `89..92 → 季`, `180..183 → 半年`,
`364..366 → 年`, `730..732 → 两年`, `1095..1097 → 三年`, `1825..1827 → 五年`,
default literal `{n}天`). -/
def formatPrice (price : ℚ) (currency : String) (billingCycle : ℤ)
    (options : Option FormatPriceOptions) : String :=
  if price = -1 then "免费"
  else if price = 0 then ""
  else if currency = "" ∨ billingCycle = 0 then "N/A"
  else
    let finalPrice := (options.bind FormatPriceOptions.convertedPrice).getD price
    let finalCurrency := (options.bind FormatPriceOptions.targetCurrency).getD currency
    let showSymbol := (options.bind FormatPriceOptions.showSymbol).getD true
    if billingCycle < 0 then
      if showSymbol then finalCurrency ++ toFixed2 finalPrice else toFixed2 finalPrice
    else
      let cycleStr :=
        if billingCycle = 30 ∨ billingCycle = 31 then "月"
        else if 89 ≤ billingCycle ∧ billingCycle ≤ 92 then "季"
        else if 180 ≤ billingCycle ∧ billingCycle ≤ 183 then "半年"
        else if 364 ≤ billingCycle ∧ billingCycle ≤ 366 then "年"
        else if 730 ≤ billingCycle ∧ billingCycle ≤ 732 then "两年"
        else if 1095 ≤ billingCycle ∧ billingCycle ≤ 1097 then "三年"
        else if 1825 ≤ billingCycle ∧ billingCycle ≤ 1827 then "五年"
        else toString billingCycle ++ "天"
      if showSymbol then finalCurrency ++ toFixed2 finalPrice ++ "/" ++ cycleStr
      else toFixed2 finalPrice ++ "/" ++ cycleStr

/-- Embedding of `calculateRemainingValue` from `utils/formatHelper`:
sentinel guards, then
`remainingDays = max(0, ceil((expiredAt - now) / (1000*60*60*24)))` on the
raw millisecond timestamps, and `remainingDays * (price / billingCycle)`. -/
def calculateRemainingValue (price : ℚ) (billingCycle : ℤ)
    (expiredAt : Option ℤ) (nowMs : ℤ) : ℚ :=
  if price = -1 ∨ price = 0 ∨ expiredAt = none ∨ billingCycle ≤ 0 then 0
  else
    match expiredAt with
    | none => 0
    | some expiredMs =>
      let remainingDays : ℤ :=
        max 0 ⌈((expiredMs : ℚ) - (nowMs : ℚ)) / (1000 * 60 * 60 * 24)⌉
      let dailyValue : ℚ := price / (billingCycle : ℚ)
      (remainingDays : ℚ) * dailyValue

/-- Truncation of a millisecond timestamp to the preceding local midnight,
for a local timezone `tzOffsetMs` ahead of UTC. -/
def midnightLocal (tzOffsetMs t : ℤ) : ℤ := t - (t + tzOffsetMs) % 86400000

/-- Definition following the specification text for claim C1 (to be compared
with `calculateRemainingValue` above): the same sentinel guards, but
`remainingDays = max(0, floor((midnight(expiresAt) - midnight(now)) / oneDayMs))`
with both timestamps truncated to local midnight before differencing. -/
def remainingValueSpec (tzOffsetMs : ℤ) (price : ℚ) (billingCycle : ℤ)
    (expiredAt : Option ℤ) (nowMs : ℤ) : ℚ :=
  if price = -1 ∨ price = 0 ∨ expiredAt = none ∨ billingCycle ≤ 0 then 0
  else
    match expiredAt with
    | none => 0
    | some expiredMs =>
      let remainingDays : ℤ :=
        max 0 ((midnightLocal tzOffsetMs expiredMs - midnightLocal tzOffsetMs nowMs) / 86400000)
      (remainingDays : ℚ) * (price / (billingCycle : ℚ))

/-- Node record fields consumed by the billing summary in the home page
(`price`, `billing_cycle`, `currency`, `expired_at`, `name`). -/
structure NodeRecord where
  name : String
  price : ℚ
  currency : String
  billing_cycle : ℤ
  expired_at : Option ℤ

/-- Renewal event as produced by the billing summary: node name, occurrence
timestamp, converted amount. -/
structure RenewalEvent where
  name : String
  date : ℤ
  amount : ℚ

/-- The enumeration loop `for (let t = baseMs; t <= endMs; t += periodMs)` of
`buildRenewalSummary`, returning the visited timestamps. The loop is only
reached with a positive period (the source skips records with
`periodMs <= 0`), which the guard records to make the recursion terminate. -/
def renewTimes (endMs periodMs t : ℤ) : List ℤ :=
  if _h : 0 < periodMs ∧ t ≤ endMs then t :: renewTimes endMs periodMs (t + periodMs)
  else []
termination_by (endMs + periodMs - t).toNat
decreasing_by omega

/-- Events contributed by one node record inside `buildRenewalSummary`: skip
non-positive prices, non-positive cycles and missing expiry; advance an
anchor lying before the window start by
`k = floor((startMs - baseMs) / periodMs) + 1` whole periods; then emit one
event per enumerated occurrence, carrying the converted price. -/
def nodeEvents (conv : ℚ → String → ℚ) (startMs endMs : ℤ) (n : NodeRecord) :
    List RenewalEvent :=
  if n.price ≤ 0 then []
  else if n.billing_cycle ≤ 0 then []
  else
    match n.expired_at with
    | none => []
    | some baseMs0 =>
      let periodMs := n.billing_cycle * (24 * 60 * 60 * 1000)
      let baseMs :=
        if baseMs0 < startMs then
          baseMs0 + ((startMs - baseMs0) / periodMs + 1) * periodMs
        else baseMs0
      (renewTimes endMs periodMs baseMs).map
        (fun t => { name := n.name, date := t, amount := conv n.price n.currency })

/-- Result shape of `buildRenewalSummary`: the accumulated total and the
event list. -/
structure RenewalSummary where
  total : ℚ
  events : List RenewalEvent

/-- Embedding of the `buildRenewalSummary` helper of the home page billing
block: accumulate events over the filtered nodes, sum the converted amounts,
and sort the events by occurrence date ascending. `conv` stands for the
`convertCurrency(price, currency)` closure supplied by the exchange-rate
context. -/
def buildRenewalSummary (conv : ℚ → String → ℚ) (nodes : List NodeRecord)
    (startMs endMs : ℤ) : RenewalSummary :=
  let events := nodes.flatMap (nodeEvents conv startMs endMs)
  { total := (events.map RenewalEvent.amount).sum
    events := events.mergeSort (fun a b => decide (a.date ≤ b.date)) }

/-- The `currencyMap` table of `services/exchangeRate.ts`: display symbols
and localized names to ISO codes. -/
def currencyMap : List (String × String) :=
  [("¥", "CNY"), ("￥", "CNY"), ("$", "USD"), ("€", "EUR"), ("£", "GBP"),
   ("₽", "RUB"), ("₣", "CHF"), ("₹", "INR"), ("₫", "VND"), ("฿", "THB"),
   ("₩", "KRW"), ("₱", "PHP"),
   ("人民币", "CNY"), ("美元", "USD"), ("欧元", "EUR"), ("英镑", "GBP"),
   ("日元", "JPY"), ("香港元", "HKD"), ("港币", "HKD"), ("澳门元", "MOP"),
   ("新台币", "TWD"), ("新加坡元", "SGD"), ("韩元", "KRW"), ("印度卢比", "INR"),
   ("墨西哥比索", "MXN"), ("加拿大元", "CAD"), ("澳大利亚元", "AUD"),
   ("新西兰元", "NZD"), ("瑞士法郎", "CHF"), ("瑞典克朗", "SEK"),
   ("挪威克朗", "NOK"), ("丹麦克朗", "DKK"), ("俄罗斯卢布", "RUB"),
   ("土耳其里拉", "TRY"), ("南非兰特", "ZAR"), ("阿根廷比索", "ARS"),
   ("智利比索", "CLP"), ("哥伦比亚比索", "COP"), ("越南盾", "VND"),
   ("泰国铢", "THB"), ("菲律宾比索", "PHP"), ("马来西亚林吉特", "MYR")]

/-- Rate table shape (`ExchangeRateData`): base code, date string, code to
rate table, optional last-update timestamp. -/
structure ExchangeRateData where
  base : String
  date : String
  rates : List (String × ℚ)
  lastUpdated : Option ℤ

/-- Embedding of `normalizeCurrencyCode`: map through `currencyMap` after
uppercasing, falling back to the uppercased input. -/
def normalizeCurrencyCode (currencyCode : String) : String :=
  (currencyMap.lookup (jsToUpper currencyCode)).getD (jsToUpper currencyCode)

/-- Embedding of `getCurrencyRate`: the base resolves to rate 1 without a
lookup; otherwise look the normalized code up in the table, where the
JavaScript `|| null` turns a stored rate of exactly 0 into `null`. -/
def getCurrencyRate (currencyCode : String) (rates : ExchangeRateData) : Option ℚ :=
  let normalizedCode := normalizeCurrencyCode currencyCode
  if normalizedCode = rates.base then some 1
  else
    match rates.rates.lookup (jsToUpper normalizedCode) with
    | some v => if v = 0 then none else some v
    | none => none

/-- Embedding of `convertCurrency`: identical raw identifiers short-circuit;
an unresolvable rate on either side returns the amount unchanged; otherwise
`amount / fromRate * toRate`. -/
def convertCurrency (amount : ℚ) (fromCurrency toCurrency : String)
    (rates : ExchangeRateData) : ℚ :=
  if fromCurrency = toCurrency then amount
  else
    match getCurrencyRate fromCurrency rates, getCurrencyRate toCurrency rates with
    | some fromRate, some toRate => amount / fromRate * toRate
    | _, _ => amount

/-- Rounding to the nearest integer with ties to even, the tie-breaking rule
of IEEE 754 round-to-nearest. -/
def roundHalfEven (x : ℚ) : ℤ :=
  if x - ⌊x⌋ < 1 / 2 then ⌊x⌋
  else if 1 / 2 < x - ⌊x⌋ then ⌊x⌋ + 1
  else if ⌊x⌋ % 2 = 0 then ⌊x⌋ else ⌊x⌋ + 1

/-- Rounding of a positive rational to the nearest IEEE binary64 value
(53-bit significand, round half to even), ignoring the exponent range limits
(no overflow or subnormals in the modelled range). -/
def roundDoublePos (q : ℚ) : ℚ :=
  (roundHalfEven (q * 2 ^ ((52 : ℤ) - Int.log 2 q)) : ℚ) * 2 ^ (Int.log 2 q - 52)

/-- Rounding of a rational to the nearest IEEE binary64 value. -/
def roundDouble (q : ℚ) : ℚ :=
  if q = 0 then 0
  else if 0 < q then roundDoublePos q
  else -roundDoublePos (-q)

/-- Definition following the source of `convertCurrency` at the
floating-point level, for comparison with the exact-rational `convertCurrency`
above (claim C5): identical control flow, but each arithmetic operation of
`(amount / fromRate) * toRate` rounds its result to the nearest IEEE binary64
value, as JavaScript number semantics does. -/
def convertCurrencyFP (amount : ℚ) (fromCurrency toCurrency : String)
    (rates : ExchangeRateData) : ℚ :=
  if fromCurrency = toCurrency then amount
  else
    match getCurrencyRate fromCurrency rates, getCurrencyRate toCurrency rates with
    | some fromRate, some toRate => roundDouble (roundDouble (amount / fromRate) * toRate)
    | _, _ => amount

/-- Cache entry of the rate service (`{ data, timestamp }`). -/
structure RatesCacheEntry where
  data : ExchangeRateData
  timestamp : ℤ

/-- The cache duration of the rate service: one hour in milliseconds. -/
def CACHE_DURATION : ℤ := 60 * 60 * 1000

/-- Model of `Map.prototype.set` on the association-list cache: replace the
entry with the given key, or append a new one. -/
def mapSet (k : String) (v : RatesCacheEntry) :
    List (String × RatesCacheEntry) → List (String × RatesCacheEntry)
  | [] => [(k, v)]
  | (k2, v2) :: rest =>
    if k2 = k then (k, v) :: rest else (k2, v2) :: mapSet k v rest

/-- Embedding of `getExchangeRates` with the mutable cache map, the clock
and the fetch outcome made explicit. The result is the returned table (or
`none`), the cache map after the call, and whether a fetch was attempted.
A fresh cache entry (younger than `CACHE_DURATION`) is returned without
fetching; a successful fetch overwrites the cache entry; a failed fetch is
caught and falls back to the (possibly stale) cached entry, or `none`. -/
def getExchangeRates (cache : List (String × RatesCacheEntry)) (nowMs : ℤ)
    (apiType : String) (fetchResult : Except String ExchangeRateData) :
    Option ExchangeRateData × List (String × RatesCacheEntry) × Bool :=
  let cacheKey := "rates_" ++ apiType
  match cache.lookup cacheKey with
  | some cached =>
    if nowMs - cached.timestamp < CACHE_DURATION then (some cached.data, cache, false)
    else
      match fetchResult with
      | Except.ok data => (some data, mapSet cacheKey { data := data, timestamp := nowMs } cache, true)
      | Except.error _ => (some cached.data, cache, true)
  | none =>
    match fetchResult with
    | Except.ok data => (some data, mapSet cacheKey { data := data, timestamp := nowMs } cache, true)
    | Except.error _ => (none, cache, true)

/-- Ceiling of an integer quotient over ℚ expressed through Euclidean
integer division (which is floor division for a positive divisor). -/
theorem ceil_intCast_div (a b : ℤ) (hb : 0 < b) :
    ⌈(a : ℚ) / (b : ℚ)⌉ = -(-a / b) := by
  have hbn : ((b.toNat : ℕ) : ℤ) = b := Int.toNat_of_nonneg hb.le
  have hbq : ((b.toNat : ℕ) : ℚ) = (b : ℚ) := by exact_mod_cast congrArg Int.cast hbn
  have h0 : ⌊((-a : ℤ) : ℚ) / ((b.toNat : ℕ) : ℚ)⌋ = -a / ((b.toNat : ℕ) : ℤ) :=
    Rat.floor_intCast_div_natCast (-a) b.toNat
  have h1 : -((a : ℚ) / (b : ℚ)) = ((-a : ℤ) : ℚ) / ((b.toNat : ℕ) : ℚ) := by
    rw [hbq]; push_cast; ring
  rw [show ⌈(a : ℚ) / (b : ℚ)⌉ = -⌊-((a : ℚ) / (b : ℚ))⌋ by rw [Int.floor_neg]; ring,
    h1, h0, hbn]

/-- Every rate `getCurrencyRate` actually returns is nonzero: the base gets
rate 1, and a stored zero is filtered to `null` by the `|| null`. -/
theorem getCurrencyRate_ne_zero (c : String) (rates : ExchangeRateData) (r : ℚ)
    (h : getCurrencyRate c rates = some r) : r ≠ 0 := by
  simp only [getCurrencyRate] at h
  split at h
  · rw [Option.some.injEq] at h
    rw [← h]
    exact one_ne_zero
  · split at h
    · split at h
      · exact absurd h (by simp)
      · rw [Option.some.injEq] at h
        rw [← h]
        assumption
    · exact absurd h (by simp)

/-- A currency whose normalized code is neither the base nor a key of the
table resolves to no rate. -/
theorem getCurrencyRate_eq_none (c : String) (rates : ExchangeRateData)
    (hb : normalizeCurrencyCode c ≠ rates.base)
    (hl : rates.rates.lookup (jsToUpper (normalizeCurrencyCode c)) = none) :
    getCurrencyRate c rates = none := by
  simp only [getCurrencyRate, if_neg hb, hl]

/-- Conversion degrades to identity when the source currency resolves to no
rate. -/
theorem convertCurrency_eq_of_left_none (amount : ℚ) (fromCurrency toCurrency : String)
    (rates : ExchangeRateData) (h : getCurrencyRate fromCurrency rates = none) :
    convertCurrency amount fromCurrency toCurrency rates = amount := by
  simp only [convertCurrency, h]
  split
  · rfl
  · cases getCurrencyRate toCurrency rates <;> rfl

/-- Conversion degrades to identity when the target currency resolves to no
rate. -/
theorem convertCurrency_eq_of_right_none (amount : ℚ) (fromCurrency toCurrency : String)
    (rates : ExchangeRateData) (h : getCurrencyRate toCurrency rates = none) :
    convertCurrency amount fromCurrency toCurrency rates = amount := by
  simp only [convertCurrency, h]
  split
  · rfl
  · cases getCurrencyRate fromCurrency rates <;> rfl

/-- Identity of the conversion in the exact-rational model: identifiers that
agree after normalization resolve to the same rate, nonzero by construction,
so `amount / r * r = amount` holds exactly in ℚ. -/
theorem convertCurrency_identity_of_normalized_eq (amount : ℚ)
    (fromCurrency toCurrency : String) (rates : ExchangeRateData)
    (h : normalizeCurrencyCode fromCurrency = normalizeCurrencyCode toCurrency) :
    convertCurrency amount fromCurrency toCurrency rates = amount := by
  simp only [convertCurrency]
  split
  · rfl
  · have hr : getCurrencyRate fromCurrency rates = getCurrencyRate toCurrency rates := by
      simp only [getCurrencyRate, h]
    rw [hr]
    cases hg : getCurrencyRate toCurrency rates with
    | none => rfl
    | some r => exact div_mul_cancel₀ amount (getCurrencyRate_ne_zero toCurrency rates r hg)

/-- Uniqueness of the binary exponent: the bracketing powers of two pin down
`Int.log 2`. -/
theorem int_log2_eq_of_bounds (q : ℚ) (e : ℤ) (h1 : (2 : ℚ) ^ e ≤ q)
    (h2 : q < (2 : ℚ) ^ (e + 1)) : Int.log 2 q = e := by
  have h0 : 0 < q := lt_of_lt_of_le (zpow_pos (by norm_num) e) h1
  have hb : (1 : ℕ) < 2 := one_lt_two
  have hlb : ((2 : ℕ) : ℚ) ^ Int.log 2 q ≤ q := Int.zpow_log_le_self hb h0
  have hub : q < ((2 : ℕ) : ℚ) ^ (Int.log 2 q + 1) := Int.lt_zpow_succ_log_self hb q
  have hcast : ((2 : ℕ) : ℚ) = (2 : ℚ) := by norm_num
  rw [hcast] at hlb hub
  by_contra hne
  rcases lt_or_gt_of_ne hne with hlt | hgt
  · have hmono : (2 : ℚ) ^ (Int.log 2 q + 1) ≤ (2 : ℚ) ^ e :=
      zpow_le_zpow_right₀ (by norm_num) (by omega)
    linarith
  · have hmono : (2 : ℚ) ^ (e + 1) ≤ (2 : ℚ) ^ (Int.log 2 q) :=
      zpow_le_zpow_right₀ (by norm_num) (by omega)
    linarith

/-- Binary64 rounding of 1/49: the significand `2^58/49` rounds down, giving
`5882252574524729 * 2^(-58)`. -/
theorem roundDouble_one_div_49 :
    roundDouble (1 / 49 : ℚ) = 5882252574524729 / 288230376151711744 := by
  have hlog : Int.log 2 (1 / 49 : ℚ) = -6 :=
    int_log2_eq_of_bounds (1 / 49) (-6) (by norm_num) (by norm_num)
  have hfloor : ⌊(288230376151711744 / 49 : ℚ)⌋ = 5882252574524729 := by
    rw [Int.floor_eq_iff]
    norm_num
  have hrhe : roundHalfEven (288230376151711744 / 49 : ℚ) = 5882252574524729 := by
    simp only [roundHalfEven, hfloor]
    rw [if_pos (by norm_num)]
  rw [roundDouble, if_neg (by norm_num), if_pos (by norm_num)]
  rw [roundDoublePos, hlog]
  rw [show ((1 : ℚ) / 49) * 2 ^ ((52 : ℤ) - (-6)) = 288230376151711744 / 49 by norm_num]
  rw [hrhe]
  norm_num

/-- Binary64 rounding of `fl(1/49) * 49 = 1 - 23 * 2^(-58)`: the significand
`2^53 - 23/32` rounds down to `2^53 - 1`, so the product is
`(2^53 - 1)/2^53`, strictly below 1. -/
theorem roundDouble_roundtrip_49 :
    roundDouble ((5882252574524729 / 288230376151711744 : ℚ) * 49) =
      9007199254740991 / 9007199254740992 := by
  have hval : ((5882252574524729 / 288230376151711744 : ℚ) * 49) =
      288230376151711721 / 288230376151711744 := by norm_num
  have hlog : Int.log 2 (288230376151711721 / 288230376151711744 : ℚ) = -1 :=
    int_log2_eq_of_bounds _ (-1) (by norm_num) (by norm_num)
  have hfloor : ⌊(288230376151711721 / 32 : ℚ)⌋ = 9007199254740991 := by
    rw [Int.floor_eq_iff]
    norm_num
  have hrhe : roundHalfEven (288230376151711721 / 32 : ℚ) = 9007199254740991 := by
    simp only [roundHalfEven, hfloor]
    rw [if_pos (by norm_num)]
  rw [hval, roundDouble, if_neg (by norm_num), if_pos (by norm_num)]
  rw [roundDoublePos, hlog]
  rw [show ((288230376151711721 : ℚ) / 288230376151711744) * 2 ^ ((52 : ℤ) - (-1)) =
    288230376151711721 / 32 by norm_num]
  rw [hrhe]
  norm_num

/-- Counterexample for C5: the short-circuit of `convertCurrency` tests raw
string equality only. The pair `¥` and `人民币` both normalize to CNY, yet
with rate 49 the floating-point evaluation of `(1 / 49) * 49` returns
`(2^53 - 1)/2^53 = 0.9999999999999999...`, not exactly 1. -/
theorem convertCurrencyFP_roundtrip_counterexample :
    normalizeCurrencyCode "¥" = normalizeCurrencyCode "人民币" ∧
    ("¥" : String) ≠ "人民币" ∧
    convertCurrencyFP 1 "¥" "人民币"
      { base := "USD", date := "d", rates := [("CNY", 49)], lastUpdated := none } =
      9007199254740991 / 9007199254740992 ∧
    convertCurrencyFP 1 "¥" "人民币"
      { base := "USD", date := "d", rates := [("CNY", 49)], lastUpdated := none } ≠ 1 := by
  have hfrom : getCurrencyRate "¥"
      { base := "USD", date := "d", rates := [("CNY", 49)], lastUpdated := none } =
      some 49 := by decide
  have hto : getCurrencyRate "人民币"
      { base := "USD", date := "d", rates := [("CNY", 49)], lastUpdated := none } =
      some 49 := by decide
  have heval : convertCurrencyFP 1 "¥" "人民币"
      { base := "USD", date := "d", rates := [("CNY", 49)], lastUpdated := none } =
      9007199254740991 / 9007199254740992 := by
    rw [convertCurrencyFP, if_neg (by decide), hfrom, hto]
    show roundDouble (roundDouble ((1 : ℚ) / 49) * 49) = 9007199254740991 / 9007199254740992
    rw [roundDouble_one_div_49, roundDouble_roundtrip_49]
  refine ⟨by decide, by decide, heval, ?_⟩
  rw [heval]
  norm_num

/-- Claim C5 (amended): `convertCurrency` returns exactly the input amount
when the two identifiers are equal as raw strings (the short-circuit fires
before any arithmetic, also under floating-point semantics); for identifiers
equal only after normalization, both sides resolve to the same nonzero rate
and the computed `(amount / r) * r` equals the amount in exact rational
arithmetic, the floating-point evaluation being subject to one round-trip
error. -/
theorem convertCurrency_identity_raw_or_exact :
    (∀ (amount : ℚ) (c : String) (rates : ExchangeRateData),
        convertCurrency amount c c rates = amount ∧
        convertCurrencyFP amount c c rates = amount) ∧
    (∀ (amount : ℚ) (fromCurrency toCurrency : String) (rates : ExchangeRateData),
        normalizeCurrencyCode fromCurrency = normalizeCurrencyCode toCurrency →
        convertCurrency amount fromCurrency toCurrency rates = amount) := by
  constructor
  · intro amount c rates
    constructor
    · simp [convertCurrency]
    · simp [convertCurrencyFP]
  · exact convertCurrency_identity_of_normalized_eq

/-- Witness for C5 (amended): the raw-equality short-circuit returns 42
exactly under floating-point semantics, and the exact-rational model returns
42 for the normalized-equal pair `$` and USD. -/
theorem convertCurrency_identity_raw_or_exact_witness :
    convertCurrencyFP 42 "USD" "USD"
      { base := "USD", date := "d", rates := [], lastUpdated := none } = 42 ∧
    convertCurrency 42 "$" "USD"
      { base := "USD", date := "2024-01-01", rates := [("CNY", 7)], lastUpdated := none } = 42 :=
  ⟨(convertCurrency_identity_raw_or_exact.1 42 "USD"
      { base := "USD", date := "d", rates := [], lastUpdated := none }).2,
    convertCurrency_identity_raw_or_exact.2 42 "$" "USD"
      { base := "USD", date := "2024-01-01", rates := [("CNY", 7)], lastUpdated := none }
      (by decide)⟩

/-- Claim C6: if either identifier resolves to a code that is neither the
base nor a key of the rate table, conversion returns the amount unchanged. -/
theorem convertCurrency_unavailable_identity (amount : ℚ)
    (fromCurrency toCurrency : String) (rates : ExchangeRateData)
    (h : (normalizeCurrencyCode fromCurrency ≠ rates.base ∧
            rates.rates.lookup (jsToUpper (normalizeCurrencyCode fromCurrency)) = none) ∨
         (normalizeCurrencyCode toCurrency ≠ rates.base ∧
            rates.rates.lookup (jsToUpper (normalizeCurrencyCode toCurrency)) = none)) :
    convertCurrency amount fromCurrency toCurrency rates = amount := by
  rcases h with ⟨hb, hl⟩ | ⟨hb, hl⟩
  · exact convertCurrency_eq_of_left_none amount fromCurrency toCurrency rates
      (getCurrencyRate_eq_none fromCurrency rates hb hl)
  · exact convertCurrency_eq_of_right_none amount fromCurrency toCurrency rates
      (getCurrencyRate_eq_none toCurrency rates hb hl)

/-- Witness for C6: the unresolvable currency XYZ converted to USD with a
table lacking XYZ returns the input amount unchanged. -/
theorem convertCurrency_unavailable_witness :
    convertCurrency 7 "XYZ" "USD"
      { base := "USD", date := "d", rates := [("CNY", 7)], lastUpdated := none } = 7 :=
  convertCurrency_unavailable_identity 7 "XYZ" "USD"
    { base := "USD", date := "d", rates := [("CNY", 7)], lastUpdated := none }
    (by decide)

/-- Claim C9: `convertCurrency` never divides by zero. Every rate the lookup
yields is nonzero, and a rate stored as exactly 0 in the table is treated as
unavailable, so the conversion returns the input amount unchanged. -/
theorem convertCurrency_no_div_by_zero :
    (∀ (c : String) (rates : ExchangeRateData) (r : ℚ),
        getCurrencyRate c rates = some r → r ≠ 0) ∧
    (∀ (amount : ℚ) (fromCurrency toCurrency : String) (rates : ExchangeRateData),
        normalizeCurrencyCode fromCurrency ≠ rates.base →
        rates.rates.lookup (jsToUpper (normalizeCurrencyCode fromCurrency)) = some 0 →
        getCurrencyRate fromCurrency rates = none ∧
        convertCurrency amount fromCurrency toCurrency rates = amount) := by
  constructor
  · exact getCurrencyRate_ne_zero
  · intro amount fromCurrency toCurrency rates hb hl
    have hnone : getCurrencyRate fromCurrency rates = none := by
      simp [getCurrencyRate, if_neg hb, hl]
    exact ⟨hnone, convertCurrency_eq_of_left_none amount fromCurrency toCurrency rates hnone⟩

/-- Witness for C9: a table storing rate 0 for ZRC yields no rate for ZRC,
and converting 9 from ZRC returns 9 unchanged. -/
theorem convertCurrency_no_div_by_zero_witness :
    getCurrencyRate "ZRC"
      { base := "USD", date := "d", rates := [("ZRC", 0)], lastUpdated := none } = none ∧
    convertCurrency 9 "ZRC" "USD"
      { base := "USD", date := "d", rates := [("ZRC", 0)], lastUpdated := none } = 9 :=
  convertCurrency_no_div_by_zero.2 9 "ZRC" "USD"
    { base := "USD", date := "d", rates := [("ZRC", 0)], lastUpdated := none }
    (by decide) (by decide)

/-- Claim C7: with the cache map and clock explicit, `getExchangeRates`
returns the cached table without fetching whenever the entry for the source
is younger than one hour, and on a fetch failure returns the existing cache
entry (stale or not) when one exists and `none` otherwise, instead of
propagating the error. -/
theorem getExchangeRates_cache_and_failure :
    (∀ (cache : List (String × RatesCacheEntry)) (nowMs : ℤ) (apiType : String)
        (fetchResult : Except String ExchangeRateData) (entry : RatesCacheEntry),
        cache.lookup ("rates_" ++ apiType) = some entry →
        nowMs - entry.timestamp < CACHE_DURATION →
        getExchangeRates cache nowMs apiType fetchResult = (some entry.data, cache, false)) ∧
    (∀ (cache : List (String × RatesCacheEntry)) (nowMs : ℤ) (apiType : String)
        (msg : String),
        (getExchangeRates cache nowMs apiType (Except.error msg)).1 =
          (cache.lookup ("rates_" ++ apiType)).map RatesCacheEntry.data) := by
  constructor
  · intro cache nowMs apiType fetchResult entry hlook hfresh
    simp only [getExchangeRates, hlook, if_pos hfresh]
  · intro cache nowMs apiType msg
    simp only [getExchangeRates]
    cases hlook : cache.lookup ("rates_" ++ apiType) with
    | none => rfl
    | some entry =>
      by_cases hfresh : nowMs - entry.timestamp < CACHE_DURATION
      · simp [hfresh]
      · simp [hfresh]

/-- Witness for C7: a cache entry 1000 ms old is served as-is with no fetch,
and with an empty cache a failed fetch yields `none`. -/
theorem getExchangeRates_cache_witness :
    getExchangeRates
      [("rates_exchangerate",
        { data := { base := "USD", date := "d", rates := [("CNY", 7)], lastUpdated := none },
          timestamp := 1000 })]
      2000 "exchangerate" (Except.error "boom") =
      (some { base := "USD", date := "d", rates := [("CNY", 7)], lastUpdated := none },
        [("rates_exchangerate",
          { data := { base := "USD", date := "d", rates := [("CNY", 7)], lastUpdated := none },
            timestamp := 1000 })],
        false) ∧
    (getExchangeRates [] 2000 "exchangerate" (Except.error "boom")).1 = none :=
  ⟨getExchangeRates_cache_and_failure.1
      [("rates_exchangerate",
        { data := { base := "USD", date := "d", rates := [("CNY", 7)], lastUpdated := none },
          timestamp := 1000 })]
      2000 "exchangerate" (Except.error "boom")
      { data := { base := "USD", date := "d", rates := [("CNY", 7)], lastUpdated := none },
        timestamp := 1000 }
      rfl (by decide),
    getExchangeRates_cache_and_failure.2 [] 2000 "exchangerate" "boom"⟩

/-- Claim C10: a failed fetch leaves the rate cache unchanged; only a
successful fetch writes a cache entry. -/
theorem getExchangeRates_failure_preserves_cache
    (cache : List (String × RatesCacheEntry)) (nowMs : ℤ) (apiType : String)
    (msg : String) :
    (getExchangeRates cache nowMs apiType (Except.error msg)).2.1 = cache := by
  simp only [getExchangeRates]
  cases hlook : cache.lookup ("rates_" ++ apiType) with
  | none => rfl
  | some entry =>
    by_cases hfresh : nowMs - entry.timestamp < CACHE_DURATION
    · simp [hfresh]
    · simp [hfresh]

/-- Witness for C10: a failed fetch against a concrete one-entry cache
returns with that cache intact. -/
theorem getExchangeRates_failure_preserves_cache_witness :
    (getExchangeRates
      [("rates_currency",
        { data := { base := "USD", date := "d", rates := [], lastUpdated := none },
          timestamp := 0 })]
      9999999999 "currency" (Except.error "down")).2.1 =
      [("rates_currency",
        { data := { base := "USD", date := "d", rates := [], lastUpdated := none },
          timestamp := 0 })] :=
  getExchangeRates_failure_preserves_cache
    [("rates_currency",
      { data := { base := "USD", date := "d", rates := [], lastUpdated := none },
        timestamp := 0 })]
    9999999999 "currency" "down"

/-- Negative billing cycle (one-time price) branch of `formatPrice` with
default options: the amount is rendered with the currency prefix and no
cycle suffix. -/
theorem formatPrice_neg_cycle (price : ℚ) (currency : String) (c : ℤ)
    (hp1 : price ≠ -1) (hp0 : price ≠ 0) (hcur : currency ≠ "") (hc : c < 0) :
    formatPrice price currency c none = currency ++ toFixed2 price := by
  have hna : ¬(currency = "" ∨ c = 0) := by
    rintro (h | h)
    · exact hcur h
    · omega
  simp only [formatPrice, Option.none_bind, Option.getD_none]
  rw [if_neg hp1, if_neg hp0, if_neg hna, if_pos hc]
  simp

/-- Fallback branch of the cycle classification: a positive cycle matching
none of the tolerance bands is rendered as the literal day count. -/
theorem formatPrice_day_literal (price : ℚ) (currency : String) (c : ℤ)
    (hp1 : price ≠ -1) (hp0 : price ≠ 0) (hcur : currency ≠ "") (hpos : 0 < c)
    (h1 : ¬(c = 30 ∨ c = 31)) (h2 : ¬(89 ≤ c ∧ c ≤ 92)) (h3 : ¬(180 ≤ c ∧ c ≤ 183))
    (h4 : ¬(364 ≤ c ∧ c ≤ 366)) (h5 : ¬(730 ≤ c ∧ c ≤ 732))
    (h6 : ¬(1095 ≤ c ∧ c ≤ 1097)) (h7 : ¬(1825 ≤ c ∧ c ≤ 1827)) :
    formatPrice price currency c none =
      currency ++ toFixed2 price ++ "/" ++ (toString c ++ "天") := by
  have hna : ¬(currency = "" ∨ c = 0) := by
    rintro (h | h)
    · exact hcur h
    · omega
  simp only [formatPrice, Option.none_bind, Option.getD_none]
  rw [if_neg hp1, if_neg hp0, if_neg hna, if_neg (by omega : ¬ c < 0),
    if_neg h1, if_neg h2, if_neg h3, if_neg h4, if_neg h5, if_neg h6, if_neg h7]
  simp

/-- Evaluation of the price rendering at the sample price 5. -/
theorem toFixed2_five : toFixed2 5 = "5.00" := by
  have h500 : (⌊(5 : ℚ) * 100 + 1 / 2⌋ : ℤ) = 500 := by
    rw [Int.floor_eq_iff]
    norm_num
  simp only [toFixed2, h500]
  decide

/-- Counterexample for C8: a negative cycle does not produce the N/A
sentinel; `formatPrice(5, "USD", -30)` renders the one-time amount. -/
theorem formatPrice_negative_cycle_not_NA :
    formatPrice 5 "USD" (-30) none = "USD5.00" ∧
    formatPrice 5 "USD" (-30) none ≠ "N/A" := by
  have h := formatPrice_neg_cycle 5 "USD" (-30) (by decide) (by decide) (by decide)
    (by decide)
  rw [h, toFixed2_five]
  constructor
  · decide
  · decide

/-- Claim C8 (amended): `formatPrice` returns the fixed free string for
price -1 and the empty string for price 0; the N/A sentinel is produced for
a missing currency or a cycle equal to 0 (a negative cycle instead takes the
one-time branch); and `calculateRemainingValue` returns 0 for price -1. -/
theorem formatPrice_sentinels :
    (∀ (currency : String) (cyc : ℤ) (opts : Option FormatPriceOptions),
        formatPrice (-1) currency cyc opts = "免费") ∧
    (∀ (currency : String) (cyc : ℤ) (opts : Option FormatPriceOptions),
        formatPrice 0 currency cyc opts = "") ∧
    (∀ (price : ℚ) (currency : String) (cyc : ℤ) (opts : Option FormatPriceOptions),
        price ≠ -1 → price ≠ 0 → (currency = "" ∨ cyc = 0) →
        formatPrice price currency cyc opts = "N/A") ∧
    (∀ (cyc : ℤ) (expiredAt : Option ℤ) (nowMs : ℤ),
        calculateRemainingValue (-1) cyc expiredAt nowMs = 0) := by
  refine ⟨fun currency cyc opts => ?_, fun currency cyc opts => ?_,
    fun price currency cyc opts hp1 hp0 hok => ?_, fun cyc e nowMs => ?_⟩
  · norm_num [formatPrice]
  · norm_num [formatPrice]
  · simp only [formatPrice]
    rw [if_neg hp1, if_neg hp0, if_pos hok]
  · simp [calculateRemainingValue]

/-- Witness for C8: the free marker, the N/A sentinel for an empty currency,
and the zero remaining value, each at concrete inputs. -/
theorem formatPrice_sentinels_witness :
    formatPrice (-1) "USD" 30 none = "免费" ∧
    formatPrice 7 "" 30 none = "N/A" ∧
    calculateRemainingValue (-1) 30 (some 0) 0 = 0 :=
  ⟨formatPrice_sentinels.1 "USD" 30 none,
    formatPrice_sentinels.2.2.1 7 "" 30 none (by decide) (by decide) (Or.inl rfl),
    formatPrice_sentinels.2.2.2 30 (some 0) 0⟩

/-- Counterexample for C2: a 28-day cycle is not classified as a month; the
code only accepts 30 and 31 for the month label, so 28 renders as the
literal day count. -/
theorem formatPrice_band28_not_month :
    formatPrice 5 "USD" 28 none = "USD5.00/28天" ∧
    formatPrice 5 "USD" 28 none ≠ "USD5.00/月" := by
  have h := formatPrice_day_literal 5 "USD" 28 (by decide) (by decide) (by decide)
    (by decide) (by decide) (by decide) (by decide) (by decide) (by decide)
    (by decide) (by decide)
  rw [h, toFixed2_five]
  constructor
  · decide
  · decide

/-- Claim C2 (amended): for a positive cycle, `formatPrice` classifies the
cycle using inclusive bands 30 to 31 for month (not 28 to 31), 89 to 92 for
quarter, 180 to 183 for half-year (not 180 to 184), 364 to 366 for year,
730 to 732 for two years, 1095 to 1097 for three years, 1825 to 1827 for
five years, and renders any other value as the literal day count. -/
theorem formatPrice_cycle_bands (price : ℚ) (currency : String) (c : ℤ)
    (hp1 : price ≠ -1) (hp0 : price ≠ 0) (hcur : currency ≠ "") (hpos : 0 < c) :
    ((30 ≤ c ∧ c ≤ 31) →
        formatPrice price currency c none = currency ++ toFixed2 price ++ "/" ++ "月") ∧
    ((89 ≤ c ∧ c ≤ 92) →
        formatPrice price currency c none = currency ++ toFixed2 price ++ "/" ++ "季") ∧
    ((180 ≤ c ∧ c ≤ 183) →
        formatPrice price currency c none = currency ++ toFixed2 price ++ "/" ++ "半年") ∧
    ((364 ≤ c ∧ c ≤ 366) →
        formatPrice price currency c none = currency ++ toFixed2 price ++ "/" ++ "年") ∧
    ((730 ≤ c ∧ c ≤ 732) →
        formatPrice price currency c none = currency ++ toFixed2 price ++ "/" ++ "两年") ∧
    ((1095 ≤ c ∧ c ≤ 1097) →
        formatPrice price currency c none = currency ++ toFixed2 price ++ "/" ++ "三年") ∧
    ((1825 ≤ c ∧ c ≤ 1827) →
        formatPrice price currency c none = currency ++ toFixed2 price ++ "/" ++ "五年") ∧
    (¬(30 ≤ c ∧ c ≤ 31) → ¬(89 ≤ c ∧ c ≤ 92) → ¬(180 ≤ c ∧ c ≤ 183) →
        ¬(364 ≤ c ∧ c ≤ 366) → ¬(730 ≤ c ∧ c ≤ 732) → ¬(1095 ≤ c ∧ c ≤ 1097) →
        ¬(1825 ≤ c ∧ c ≤ 1827) →
        formatPrice price currency c none =
          currency ++ toFixed2 price ++ "/" ++ (toString c ++ "天")) := by
  have hna : ¬(currency = "" ∨ c = 0) := by
    rintro (h | h)
    · exact hcur h
    · omega
  refine ⟨fun hb => ?_, fun hb => ?_, fun hb => ?_, fun hb => ?_, fun hb => ?_,
    fun hb => ?_, fun hb => ?_, fun n1 n2 n3 n4 n5 n6 n7 => ?_⟩
  · simp only [formatPrice, Option.none_bind, Option.getD_none]
    rw [if_neg hp1, if_neg hp0, if_neg hna, if_neg (by omega : ¬ c < 0),
      if_pos (by omega : c = 30 ∨ c = 31)]
    simp
  · simp only [formatPrice, Option.none_bind, Option.getD_none]
    rw [if_neg hp1, if_neg hp0, if_neg hna, if_neg (by omega : ¬ c < 0),
      if_neg (by omega : ¬(c = 30 ∨ c = 31)), if_pos hb]
    simp
  · simp only [formatPrice, Option.none_bind, Option.getD_none]
    rw [if_neg hp1, if_neg hp0, if_neg hna, if_neg (by omega : ¬ c < 0),
      if_neg (by omega : ¬(c = 30 ∨ c = 31)), if_neg (by omega : ¬(89 ≤ c ∧ c ≤ 92)),
      if_pos hb]
    simp
  · simp only [formatPrice, Option.none_bind, Option.getD_none]
    rw [if_neg hp1, if_neg hp0, if_neg hna, if_neg (by omega : ¬ c < 0),
      if_neg (by omega : ¬(c = 30 ∨ c = 31)), if_neg (by omega : ¬(89 ≤ c ∧ c ≤ 92)),
      if_neg (by omega : ¬(180 ≤ c ∧ c ≤ 183)), if_pos hb]
    simp
  · simp only [formatPrice, Option.none_bind, Option.getD_none]
    rw [if_neg hp1, if_neg hp0, if_neg hna, if_neg (by omega : ¬ c < 0),
      if_neg (by omega : ¬(c = 30 ∨ c = 31)), if_neg (by omega : ¬(89 ≤ c ∧ c ≤ 92)),
      if_neg (by omega : ¬(180 ≤ c ∧ c ≤ 183)), if_neg (by omega : ¬(364 ≤ c ∧ c ≤ 366)),
      if_pos hb]
    simp
  · simp only [formatPrice, Option.none_bind, Option.getD_none]
    rw [if_neg hp1, if_neg hp0, if_neg hna, if_neg (by omega : ¬ c < 0),
      if_neg (by omega : ¬(c = 30 ∨ c = 31)), if_neg (by omega : ¬(89 ≤ c ∧ c ≤ 92)),
      if_neg (by omega : ¬(180 ≤ c ∧ c ≤ 183)), if_neg (by omega : ¬(364 ≤ c ∧ c ≤ 366)),
      if_neg (by omega : ¬(730 ≤ c ∧ c ≤ 732)), if_pos hb]
    simp
  · simp only [formatPrice, Option.none_bind, Option.getD_none]
    rw [if_neg hp1, if_neg hp0, if_neg hna, if_neg (by omega : ¬ c < 0),
      if_neg (by omega : ¬(c = 30 ∨ c = 31)), if_neg (by omega : ¬(89 ≤ c ∧ c ≤ 92)),
      if_neg (by omega : ¬(180 ≤ c ∧ c ≤ 183)), if_neg (by omega : ¬(364 ≤ c ∧ c ≤ 366)),
      if_neg (by omega : ¬(730 ≤ c ∧ c ≤ 732)), if_neg (by omega : ¬(1095 ≤ c ∧ c ≤ 1097)),
      if_pos hb]
    simp
  · exact formatPrice_day_literal price currency c hp1 hp0 hcur hpos
      (by omega) n2 n3 n4 n5 n6 n7

/-- Witness for C2: cycle 91 classifies as a quarter at a concrete price. -/
theorem formatPrice_cycle_bands_witness :
    formatPrice 5 "USD" 91 none = "USD" ++ toFixed2 5 ++ "/" ++ "季" :=
  (formatPrice_cycle_bands 5 "USD" 91 (by decide) (by decide) (by decide)
    (by decide)).2.1 (by decide)

/-- Closed form of `calculateRemainingValue` past the sentinel guards, with
the ceiling expressed through Euclidean integer division. -/
theorem calculateRemainingValue_eval (price : ℚ) (billingCycle : ℤ)
    (expiredMs nowMs : ℤ) (hp1 : price ≠ -1) (hp0 : price ≠ 0)
    (hcyc : 0 < billingCycle) :
    calculateRemainingValue price billingCycle (some expiredMs) nowMs =
      ((max 0 (-((nowMs - expiredMs) / 86400000)) : ℤ) : ℚ) *
        (price / (billingCycle : ℚ)) := by
  have hguard : ¬(price = -1 ∨ price = 0 ∨ (some expiredMs : Option ℤ) = none ∨
      billingCycle ≤ 0) := by
    push_neg
    exact ⟨hp1, hp0, by simp, by omega⟩
  have hce : ⌈((expiredMs : ℚ) - (nowMs : ℚ)) / (1000 * 60 * 60 * 24)⌉ =
      -((nowMs - expiredMs) / 86400000) := by
    have h1 : ((expiredMs : ℚ) - (nowMs : ℚ)) / (1000 * 60 * 60 * 24) =
        ((expiredMs - nowMs : ℤ) : ℚ) / ((86400000 : ℤ) : ℚ) := by
      push_cast
      norm_num
    rw [h1, ceil_intCast_div (expiredMs - nowMs) 86400000 (by norm_num), neg_sub]
  simp only [calculateRemainingValue, if_neg hguard, hce]

/-- Counterexample for C1: the calculator uses the ceiling of the raw
timestamp difference, not the floor of midnight-truncated timestamps. At
10:00 with an expiry at 12:00 of the same day the code counts one remaining
day and returns a positive value, while the midnight-truncated floor formula
of the specification yields zero. -/
theorem calculateRemainingValue_not_midnight_floor :
    calculateRemainingValue 100 10 (some 43200000) 36000000 = 10 ∧
    remainingValueSpec 0 100 10 (some 43200000) 36000000 = 0 ∧
    calculateRemainingValue 100 10 (some 43200000) 36000000 ≠
      remainingValueSpec 0 100 10 (some 43200000) 36000000 := by
  have h1 : calculateRemainingValue 100 10 (some 43200000) 36000000 = 10 := by
    rw [calculateRemainingValue_eval 100 10 43200000 36000000 (by decide) (by decide)
      (by decide)]
    rw [show (max 0 (-(((36000000 : ℤ) - 43200000) / 86400000)) : ℤ) = 1 from by decide]
    norm_num
  have h2 : remainingValueSpec 0 100 10 (some 43200000) 36000000 = 0 := by
    simp only [remainingValueSpec]
    rw [if_neg (by decide)]
    rw [show (max 0 ((midnightLocal 0 43200000 - midnightLocal 0 36000000) / 86400000) : ℤ) =
      0 from by decide]
    simp
  refine ⟨h1, h2, ?_⟩
  rw [h1, h2]
  norm_num

/-- Claim C1 (amended): for a non-sentinel price and positive cycle, the
remaining value is
`max(0, ceil((expiresAt - now) / oneDayMs)) * (price / cycleDays)` computed
on the raw millisecond timestamps (no midnight truncation), with the raw
cycle length as divisor. The ceiling is expressed through Euclidean integer
division. -/
theorem calculateRemainingValue_ceil_formula (price : ℚ) (billingCycle : ℤ)
    (expiredMs nowMs : ℤ) (hp1 : price ≠ -1) (hp0 : price ≠ 0)
    (hcyc : 0 < billingCycle) :
    calculateRemainingValue price billingCycle (some expiredMs) nowMs =
      ((max 0 (-((nowMs - expiredMs) / 86400000)) : ℤ) : ℚ) *
        (price / (billingCycle : ℚ)) :=
  calculateRemainingValue_eval price billingCycle expiredMs nowMs hp1 hp0 hcyc

/-- Witness for C1 (amended): the formula evaluated at price 100, cycle 10,
expiry at 12:00 and clock at 10:00 of the same day. -/
theorem calculateRemainingValue_ceil_formula_witness :
    calculateRemainingValue 100 10 (some 43200000) 36000000 =
      ((max 0 (-(((36000000 : ℤ) - 43200000) / 86400000)) : ℤ) : ℚ) *
        ((100 : ℚ) / ((10 : ℤ) : ℚ)) :=
  calculateRemainingValue_ceil_formula 100 10 43200000 36000000 (by decide)
    (by decide) (by decide)

/-- Counterexample for C3: for the negative price -2 (not the free sentinel)
the remaining value increases from -4 to -2 as the clock advances one day
toward the expiry, so monotone non-increase fails for every price. -/
theorem remainingValue_not_monotone_for_negative_price :
    ¬(calculateRemainingValue (-2) 1 (some 172800000) 86400000 ≤
      calculateRemainingValue (-2) 1 (some 172800000) 0) := by
  have hA : calculateRemainingValue (-2) 1 (some 172800000) 0 = -4 := by
    rw [calculateRemainingValue_eval (-2) 1 172800000 0 (by decide) (by decide) (by decide)]
    rw [show (max 0 (-(((0 : ℤ) - 172800000) / 86400000)) : ℤ) = 2 from by decide]
    norm_num
  have hB : calculateRemainingValue (-2) 1 (some 172800000) 86400000 = -2 := by
    rw [calculateRemainingValue_eval (-2) 1 172800000 86400000 (by decide) (by decide)
      (by decide)]
    rw [show (max 0 (-(((86400000 : ℤ) - 172800000) / 86400000)) : ℤ) = 1 from by decide]
    norm_num
  rw [hA, hB]
  norm_num

/-- Claim C3 (amended): for a fixed nonnegative price (or the free
sentinel -1), cycle and expiry, the remaining value is monotonically
non-increasing as the clock advances, and for every price it is exactly 0
for every clock at or past the expiry timestamp. -/
theorem remainingValue_monotone_and_zero_after_expiry :
    (∀ (price : ℚ) (billingCycle : ℤ) (expiredMs n1 n2 : ℤ),
        (price = -1 ∨ 0 ≤ price) → n1 ≤ n2 →
        calculateRemainingValue price billingCycle (some expiredMs) n2 ≤
          calculateRemainingValue price billingCycle (some expiredMs) n1) ∧
    (∀ (price : ℚ) (billingCycle : ℤ) (expiredMs nowMs : ℤ),
        expiredMs ≤ nowMs →
        calculateRemainingValue price billingCycle (some expiredMs) nowMs = 0) := by
  constructor
  · intro price cyc e n1 n2 hp h12
    by_cases hg : price = -1 ∨ price = 0 ∨ (some e : Option ℤ) = none ∨ cyc ≤ 0
    · simp only [calculateRemainingValue, if_pos hg]
      exact le_rfl
    · simp only [calculateRemainingValue, if_neg hg]
      push_neg at hg
      have hpge : 0 ≤ price := by
        rcases hp with h | h
        · exact absurd h hg.1
        · exact h
      have hcyc : 0 < cyc := by omega
      apply mul_le_mul_of_nonneg_right
      · have hdiv : ((e : ℚ) - n2) / (1000 * 60 * 60 * 24) ≤
            ((e : ℚ) - n1) / (1000 * 60 * 60 * 24) := by
          apply div_le_div_of_nonneg_right ?_ (by norm_num)
          have : (n1 : ℚ) ≤ (n2 : ℚ) := by exact_mod_cast h12
          linarith
        exact_mod_cast Int.cast_le.mpr (max_le_max (le_refl 0) (Int.ceil_mono hdiv))
      · exact div_nonneg hpge (by exact_mod_cast hcyc.le)
  · intro price cyc e nowMs he
    by_cases hg : price = -1 ∨ price = 0 ∨ (some e : Option ℤ) = none ∨ cyc ≤ 0
    · simp only [calculateRemainingValue, if_pos hg]
    · simp only [calculateRemainingValue, if_neg hg]
      have hceil : ⌈((e : ℚ) - nowMs) / (1000 * 60 * 60 * 24)⌉ ≤ 0 := by
        have hnum : ((e : ℚ) - nowMs) ≤ 0 := by
          have : (e : ℚ) ≤ (nowMs : ℚ) := by exact_mod_cast he
          linarith
        have hq : ((e : ℚ) - nowMs) / (1000 * 60 * 60 * 24) ≤ 0 := by
          apply div_nonpos_of_nonpos_of_nonneg hnum
          norm_num
        calc ⌈((e : ℚ) - nowMs) / (1000 * 60 * 60 * 24)⌉
            ≤ ⌈(0 : ℚ)⌉ := Int.ceil_mono hq
          _ = 0 := by simp
      rw [max_eq_left hceil]
      simp

/-- Witness for C3 (amended): at price 100 and cycle 30 the remaining value
at day 1 is at most the remaining value at day 0, and at a clock equal to
the expiry it is 0. -/
theorem remainingValue_monotone_witness :
    calculateRemainingValue 100 30 (some 1296000000) 86400000 ≤
      calculateRemainingValue 100 30 (some 1296000000) 0 ∧
    calculateRemainingValue 100 30 (some 100) 100 = 0 :=
  ⟨remainingValue_monotone_and_zero_after_expiry.1 100 30 1296000000 0 86400000
      (Or.inr (by decide)) (by decide),
    remainingValue_monotone_and_zero_after_expiry.2 100 30 100 100 le_rfl⟩

/-- Every timestamp produced by the enumeration loop lies between its
starting cursor and the window end. -/
theorem renewTimes_mem (endMs periodMs base t : ℤ) :
    t ∈ renewTimes endMs periodMs base → base ≤ t ∧ t ≤ endMs := by
  refine renewTimes.induct endMs periodMs
    (fun b => t ∈ renewTimes endMs periodMs b → b ≤ t ∧ t ≤ endMs) ?_ ?_ base
  · intro x hx ih ht
    rw [renewTimes, dif_pos hx] at ht
    rcases List.mem_cons.mp ht with h | h
    · subst h
      exact ⟨le_refl t, hx.2⟩
    · obtain ⟨h1, h2⟩ := ih h
      obtain ⟨hP, hxe⟩ := hx
      exact ⟨by omega, h2⟩
  · intro x hx ht
    rw [renewTimes, dif_neg hx] at ht
    simp at ht

/-- Length of the enumeration loop output: one event per whole period from
the cursor to the window end, when the loop runs at all. -/
theorem renewTimes_length (endMs periodMs : ℤ) (hP : 0 < periodMs) (base : ℤ) :
    ((renewTimes endMs periodMs base).length : ℤ) =
      if base ≤ endMs then (endMs - base) / periodMs + 1 else 0 := by
  refine renewTimes.induct endMs periodMs
    (fun b => ((renewTimes endMs periodMs b).length : ℤ) =
      if b ≤ endMs then (endMs - b) / periodMs + 1 else 0) ?_ ?_ base
  · intro x hx ih
    rw [renewTimes, dif_pos hx, List.length_cons, if_pos hx.2]
    by_cases hxe : x + periodMs ≤ endMs
    · have ihx : ((renewTimes endMs periodMs (x + periodMs)).length : ℤ) =
          (endMs - (x + periodMs)) / periodMs + 1 := by
        rw [ih, if_pos hxe]
      have key : (endMs - x) / periodMs = (endMs - (x + periodMs)) / periodMs + 1 := by
        have h := Int.add_mul_ediv_right (endMs - (x + periodMs)) 1 (ne_of_gt hP)
        rw [show endMs - (x + periodMs) + 1 * periodMs = endMs - x by ring] at h
        exact h
      push_cast
      omega
    · have ihx : ((renewTimes endMs periodMs (x + periodMs)).length : ℤ) = 0 := by
        rw [ih, if_neg hxe]
      have hz : (endMs - x) / periodMs = 0 :=
        Int.ediv_eq_zero_of_lt (by omega) (by omega)
      push_cast
      omega
  · intro x hx
    rw [renewTimes, dif_neg hx, List.length_nil,
      if_neg (fun h => hx ⟨hP, h⟩)]
    rfl

/-- The advanced anchor `baseMs + (floor((startMs - baseMs)/periodMs) + 1) * periodMs`
lands strictly past the window start. -/
theorem advanced_anchor_lt (startMs baseMs0 periodMs : ℤ) (hP : 0 < periodMs)
    (_hlt : baseMs0 < startMs) :
    startMs < baseMs0 + ((startMs - baseMs0) / periodMs + 1) * periodMs := by
  have h1 := Int.emod_add_ediv (startMs - baseMs0) periodMs
  have h2 : 0 ≤ (startMs - baseMs0) % periodMs := Int.emod_nonneg _ (ne_of_gt hP)
  have h3 : (startMs - baseMs0) % periodMs < periodMs := Int.emod_lt_of_pos _ hP
  have h4 : ((startMs - baseMs0) / periodMs + 1) * periodMs =
      periodMs * ((startMs - baseMs0) / periodMs) + periodMs := by ring
  rw [h4]
  linarith

/-- Every event a single record contributes to the renewal summary is dated
inside the window. -/
theorem nodeEvents_date_bounds (conv : ℚ → String → ℚ) (startMs endMs : ℤ)
    (n : NodeRecord) (ev : RenewalEvent) (h : ev ∈ nodeEvents conv startMs endMs n) :
    startMs ≤ ev.date ∧ ev.date ≤ endMs := by
  obtain ⟨nm, p, cur, bc, ea⟩ := n
  simp only [nodeEvents] at h
  by_cases hp : p ≤ 0
  · rw [if_pos hp] at h
    simp at h
  rw [if_neg hp] at h
  by_cases hc : bc ≤ 0
  · rw [if_pos hc] at h
    simp at h
  rw [if_neg hc] at h
  cases ea with
  | none => simp at h
  | some baseMs0 =>
    have hP : 0 < bc * (24 * 60 * 60 * 1000) := by
      have : 0 < bc := by omega
      positivity
    simp only at h
    rcases List.mem_map.mp h with ⟨t, ht, hev⟩
    have hbt := renewTimes_mem endMs (bc * (24 * 60 * 60 * 1000)) _ t ht
    have hdate : ev.date = t := by rw [← hev]
    rw [hdate]
    refine ⟨?_, hbt.2⟩
    by_cases hlt : baseMs0 < startMs
    · rw [if_pos hlt] at hbt
      have hadv := advanced_anchor_lt startMs baseMs0 (bc * (24 * 60 * 60 * 1000)) hP hlt
      have := hbt.1
      omega
    · rw [if_neg hlt] at hbt
      have := hbt.1
      omega

/-- Advancing an anchor that precedes the window start by
`k = floor((startMs - anchor)/period) + 1` periods yields the same events as
a record whose anchor is already the advanced timestamp. -/
theorem nodeEvents_advance (conv : ℚ → String → ℚ) (startMs endMs : ℤ)
    (n : NodeRecord) (ms : ℤ) (he : n.expired_at = some ms) (hlt : ms < startMs) :
    nodeEvents conv startMs endMs n =
      nodeEvents conv startMs endMs
        { n with expired_at := some (ms +
            ((startMs - ms) / (n.billing_cycle * (24 * 60 * 60 * 1000)) + 1) *
              (n.billing_cycle * (24 * 60 * 60 * 1000))) } := by
  obtain ⟨nm, p, cur, bc, ea⟩ := n
  dsimp only at he ⊢
  subst he
  simp only [nodeEvents]
  by_cases hp : p ≤ 0
  · simp only [if_pos hp]
  simp only [if_neg hp]
  by_cases hc : bc ≤ 0
  · simp only [if_pos hc]
  simp only [if_neg hc]
  have hP : 0 < bc * (24 * 60 * 60 * 1000) := by
    have : 0 < bc := by omega
    positivity
  have hadv := advanced_anchor_lt startMs ms (bc * (24 * 60 * 60 * 1000)) hP hlt
  rw [if_pos hlt, if_neg (by omega)]

/-- Event count of the summary over a single record whose anchor lies inside
the window: one event per whole period between the anchor and the window
end, plus the anchor event. -/
theorem buildRenewalSummary_single_count (conv : ℚ → String → ℚ)
    (startMs endMs : ℤ) (n : NodeRecord) (ms : ℤ)
    (hp : 0 < n.price) (hc : 0 < n.billing_cycle) (he : n.expired_at = some ms)
    (h1 : startMs ≤ ms) (h2 : ms ≤ endMs) :
    ((buildRenewalSummary conv [n] startMs endMs).events.length : ℤ) =
      (endMs - ms) / (n.billing_cycle * (24 * 60 * 60 * 1000)) + 1 := by
  obtain ⟨nm, p, cur, bc, ea⟩ := n
  dsimp only at hp hc he ⊢
  subst he
  have hP : 0 < bc * (24 * 60 * 60 * 1000) := by positivity
  simp only [buildRenewalSummary, List.flatMap_cons, List.flatMap_nil, List.append_nil,
    List.length_mergeSort, nodeEvents, List.length_map]
  rw [if_neg (not_le.mpr hp), if_neg (not_le.mpr hc), if_neg (by omega : ¬ ms < startMs),
    List.length_map, renewTimes_length endMs (bc * (24 * 60 * 60 * 1000)) hP ms, if_pos h2]

/-- Claim C4: the renewal projection emits no event dated outside the
window; the returned events are sorted by occurrence time ascending; the
total is the sum of the converted amounts of the returned events; an anchor
preceding the window start is advanced by `k*period` with
`k = floor((windowStart - anchor)/period) + 1`; and for a record whose
anchor lies inside the window the event count is
`floor((windowEnd - anchor)/period) + 1`. -/
theorem buildRenewalSummary_window_count_sorted_total
    (conv : ℚ → String → ℚ) (nodes : List NodeRecord) (startMs endMs : ℤ) :
    (∀ ev ∈ (buildRenewalSummary conv nodes startMs endMs).events,
        startMs ≤ ev.date ∧ ev.date ≤ endMs) ∧
    ((buildRenewalSummary conv nodes startMs endMs).events.Pairwise
        (fun a b => a.date ≤ b.date)) ∧
    ((buildRenewalSummary conv nodes startMs endMs).total =
      ((buildRenewalSummary conv nodes startMs endMs).events.map
          RenewalEvent.amount).sum) ∧
    (∀ (n : NodeRecord) (ms : ℤ), n.expired_at = some ms → ms < startMs →
        nodeEvents conv startMs endMs n =
          nodeEvents conv startMs endMs
            { n with expired_at := some (ms +
                ((startMs - ms) / (n.billing_cycle * (24 * 60 * 60 * 1000)) + 1) *
                  (n.billing_cycle * (24 * 60 * 60 * 1000))) }) ∧
    (∀ (n : NodeRecord) (ms : ℤ), 0 < n.price → 0 < n.billing_cycle →
        n.expired_at = some ms → startMs ≤ ms → ms ≤ endMs →
        ((buildRenewalSummary conv [n] startMs endMs).events.length : ℤ) =
          (endMs - ms) / (n.billing_cycle * (24 * 60 * 60 * 1000)) + 1) := by
  refine ⟨?_, ?_, ?_, ?_, ?_⟩
  · intro ev hev
    simp only [buildRenewalSummary] at hev
    rw [List.mem_mergeSort] at hev
    rcases List.mem_flatMap.mp hev with ⟨n, hn, hevn⟩
    exact nodeEvents_date_bounds conv startMs endMs n ev hevn
  · have hs : List.Pairwise (fun a b : RenewalEvent => decide (a.date ≤ b.date) = true)
        ((nodes.flatMap (nodeEvents conv startMs endMs)).mergeSort
          (fun a b => decide (a.date ≤ b.date))) :=
      List.sorted_mergeSort
        (by
          intro a b c hab hbc
          simp only [decide_eq_true_eq] at *
          omega)
        (by
          intro a b
          simp only [Bool.or_eq_true, decide_eq_true_eq]
          exact le_total a.date b.date)
        (nodes.flatMap (nodeEvents conv startMs endMs))
    simp only [buildRenewalSummary]
    exact List.Pairwise.imp (fun hab => of_decide_eq_true hab) hs
  · simp only [buildRenewalSummary]
    exact (((List.mergeSort_perm (nodes.flatMap (nodeEvents conv startMs endMs))
      (fun a b => decide (a.date ≤ b.date))).map RenewalEvent.amount).sum_eq).symm
  · exact fun n ms he hlt => nodeEvents_advance conv startMs endMs n ms he hlt
  · exact fun n ms hp hc he h1 h2 =>
      buildRenewalSummary_single_count conv startMs endMs n ms hp hc he h1 h2

/-- Witness for C4: a single record priced 5 with a 2-day cycle expiring at
day 1 inside the window from 0 to day 4 contributes
`floor((endMs - anchor)/period) + 1` events. -/
theorem buildRenewalSummary_witness :
    ((buildRenewalSummary (fun q _ => q)
        [{ name := "a", price := 5, currency := "USD", billing_cycle := 2,
           expired_at := some 86400000 }] 0 345600000).events.length : ℤ) =
      (345600000 - 86400000) / ((2 : ℤ) * (24 * 60 * 60 * 1000)) + 1 :=
  (buildRenewalSummary_window_count_sorted_total (fun q _ => q)
      [{ name := "a", price := 5, currency := "USD", billing_cycle := 2,
         expired_at := some 86400000 }] 0 345600000).2.2.2.2
    { name := "a", price := 5, currency := "USD", billing_cycle := 2,
      expired_at := some 86400000 }
    86400000 (by decide) (by decide) rfl (by decide) (by decide)
